import Mathlib

/-!
Shallow embedding of the esp32-http-servo repository core
(src/http_server.rs, src/servo.rs, src/serial_cmd.rs, src/bin/main.rs).

Strings are modelled as `List Char` (Rust `&str` decoded text); bytes as
`Nat` values below 256; Rust `u8`/`u32` arithmetic as `Nat` with explicit
`% 2^32` where a u32 operation could overflow.
-/

set_option maxRecDepth 4096

/-- Strings of the model: the character sequence of a Rust `&str`. -/
abbrev Str := List Char

/-- Convert a Lean string literal into the model's character list. -/
def str (s : String) : Str := s.toList

/-- Rust `char::is_whitespace`: the Unicode White_Space property. -/
def rustIsWhitespace (c : Char) : Bool :=
  [0x09, 0x0A, 0x0B, 0x0C, 0x0D, 0x20, 0x85, 0xA0, 0x1680].contains c.toNat
  || (decide (0x2000 ≤ c.toNat) && decide (c.toNat ≤ 0x200A))
  || [0x2028, 0x2029, 0x202F, 0x205F, 0x3000].contains c.toNat

/-- Rust `str::trim_start` (by `char::is_whitespace`). -/
def trimStart : Str → Str
  | [] => []
  | c :: rest => if rustIsWhitespace c then trimStart rest else c :: rest

/-- Rust `str::trim`: whitespace stripped from both ends. -/
def rustTrim (s : Str) : Str := ((trimStart ((trimStart s).reverse)).reverse)

/-- Helper for `splitWhitespace`: accumulates the current token reversed. -/
def splitWhitespaceAux : Str → Str → List Str
  | [], acc => if acc.isEmpty then [] else [acc.reverse]
  | c :: rest, acc =>
    if rustIsWhitespace c then
      if acc.isEmpty then splitWhitespaceAux rest []
      else acc.reverse :: splitWhitespaceAux rest []
    else splitWhitespaceAux rest (c :: acc)

/-- Rust `str::split_whitespace`: non-empty tokens between Unicode whitespace. -/
def splitWhitespace (s : Str) : List Str := splitWhitespaceAux s []

/-- Characters up to (excluding) the first line feed. -/
def takeUntilLF : Str → Str
  | [] => []
  | c :: rest => if c = '\n' then [] else c :: takeUntilLF rest

/-- Drop one trailing carriage return, as Rust `str::lines` does. -/
def stripTrailingCR (s : Str) : Str :=
  match s.reverse with
  | '\r' :: rest => rest.reverse
  | _ => s

/-- Rust `request.lines().next()`: `none` on the empty string, otherwise the
first line (up to `\n`, with a trailing `\r` removed). -/
def linesNext (s : Str) : Option Str :=
  if s.isEmpty then none else some (stripTrailingCR (takeUntilLF s))

/-- Rust `str::strip_prefix` (called with a leading blank per local style). -/
def stripPfx : Str → Str → Option Str
  | [], s => some s
  | _ :: _, [] => none
  | p :: ps, c :: cs => if p = c then stripPfx ps cs else none

/-- Rust `str::starts_with`. -/
def startsWithPfx (p s : Str) : Bool := (stripPfx p s).isSome

/-- Rust `str::split(sep)`: includes empty pieces, never returns an empty list. -/
def splitOnChar (sep : Char) : Str → List Str
  | [] => [[]]
  | c :: rest =>
    if c = sep then [] :: splitOnChar sep rest
    else
      match splitOnChar sep rest with
      | [] => [[c]]
      | h :: t => (c :: h) :: t

/-- ASCII decimal digit test. -/
def isAsciiDigit (c : Char) : Bool := decide (48 ≤ c.toNat) && decide (c.toNat ≤ 57)

/-- Accumulate the decimal value of a digit string; `none` on a non-digit. -/
def digitsValAux : Str → Nat → Option Nat
  | [], acc => some acc
  | c :: rest, acc =>
    if isAsciiDigit c then digitsValAux rest (acc * 10 + (c.toNat - 48)) else none

/-- Rust `str::parse::<u8>().ok()`: an optional leading `+`, then one or more
ASCII digits, rejected when the value exceeds `u8::MAX = 255`. -/
def parseU8 (s : Str) : Option Nat :=
  let s' := match s with
    | '+' :: rest => rest
    | _ => s
  if s'.isEmpty then none
  else
    match digitsValAux s' 0 with
    | some v => if v ≤ 255 then some v else none
    | none => none

/-- The ASCII digit character for `n < 10`. -/
def digitChar (n : Nat) : Char := Char.ofNat (48 + n)

/-- Digit accumulator for `natChars`; the fuel only bounds recursion depth. -/
def natCharsAux : Nat → Nat → Str → Str
  | 0, _, acc => acc
  | fuel + 1, n, acc =>
    if n < 10 then digitChar n :: acc
    else natCharsAux fuel (n / 10) (digitChar (n % 10) :: acc)

/-- Decimal rendering of a natural number, as Rust `format!` renders integers. -/
def natChars (n : Nat) : Str := natCharsAux (n + 1) n []

/-- UTF-8 encoded size of one char, for modelling Rust `str::len`. -/
def charUtf8Size (c : Char) : Nat :=
  if c.toNat < 0x80 then 1
  else if c.toNat < 0x800 then 2
  else if c.toNat < 0x10000 then 3
  else 4

/-- Rust `str::len`: the byte length of the UTF-8 encoding. -/
def utf8Len (s : Str) : Nat := (s.map charUtf8Size).sum

/-! ## src/http_server.rs -/

/-- `build_response` (http_server.rs:16): uniform response template; the
`Content-Length` field is the byte length of the body. -/
def build_response (status content_type body : Str) : Str :=
  str "HTTP/1.1 " ++ status
    ++ str "\r\nContent-Type: " ++ content_type
    ++ str "\r\nContent-Length: " ++ natChars (utf8Len body)
    ++ str "\r\nConnection: close\r\n\r\n" ++ body

/-- `parse_request` (http_server.rs:27): first line's first two
whitespace-separated tokens as (method, path); `none` when absent. -/
def parse_request (request : Str) : Option (Str × Str) :=
  match linesNext request with
  | none => none
  | some first_line =>
    match splitWhitespace first_line with
    | method :: path :: _ => some (method, path)
    | _ => none

/-- The query-pair loop of `parse_servo_angle`: on the first pair carrying an
`angle=` key, return that value's parse result (even if it fails). -/
def findAngleParam : List Str → Option Nat
  | [] => none
  | part :: rest =>
    match stripPfx (str "angle=") part with
    | some value => parseU8 value
    | none => findAngleParam rest

/-- `parse_servo_angle` (http_server.rs:36): path form `/servo/<n>` or query
form `/servo?...angle=<n>...`. -/
def parse_servo_angle (path : Str) : Option Nat :=
  match stripPfx (str "/servo/") path with
  | some angle_str => parseU8 angle_str
  | none =>
    if startsWithPfx (str "/servo?") path then
      match (splitOnChar '?' path).get? 1 with
      | some query => findAngleParam (splitOnChar '&' query)
      | none => none
    else none

/-- Body of `GET /`. -/
def rootBody : Str :=
  str "\x7b\"status\": \"ok\", \"message\": \"ESP32 Servo Controller\", \"endpoints\": [\"/servo/<angle>\", \"/servo?angle=<0-180>\"]\x7d"

/-- Body of `GET /health`. -/
def healthBody : Str := str "\x7b\"healthy\": true\x7d"

/-- Error body for an out-of-range angle. -/
def angleRangeErrBody : Str :=
  str "\x7b\"error\": \"Angle must be between 0 and 180\"\x7d"

/-- Error body for a missing/invalid angle. -/
def angleMissingErrBody : Str :=
  str "\x7b\"error\": \"Missing or invalid angle parameter. Use /servo/90 or /servo?angle=90\"\x7d"

/-- Error body for an unknown path. -/
def notFoundBody : Str := str "\x7b\"error\": \"Not Found\"\x7d"

/-- Error body for a non-GET method. -/
def methodErrBody : Str := str "\x7b\"error\": \"Method Not Allowed\"\x7d"

/-- The echoed-angle success body. -/
def angleBody (angle : Nat) : Str := str "\x7b\"angle\": " ++ natChars angle ++ str "\x7d"

/-- `handle_request` (http_server.rs:55): the response text paired with the
at-most-one angle published onto the HTTP channel's signal slot
(`SERVO_ANGLE.signal(angle)` modelled as the second component). -/
def handle_request (request : Str) : Str × Option Nat :=
  match parse_request request with
  | none => (build_response (str "400 Bad Request") (str "text/plain") (str "Bad Request"), none)
  | some (method, path) =>
    if method = str "GET" then
      if path = str "/" then
        (build_response (str "200 OK") (str "application/json") rootBody, none)
      else if path = str "/health" then
        (build_response (str "200 OK") (str "application/json") healthBody, none)
      else if startsWithPfx (str "/servo") path then
        match parse_servo_angle path with
        | some angle =>
          if angle ≤ 180 then
            (build_response (str "200 OK") (str "application/json") (angleBody angle), some angle)
          else
            (build_response (str "400 Bad Request") (str "application/json") angleRangeErrBody, none)
        | none =>
          (build_response (str "400 Bad Request") (str "application/json") angleMissingErrBody, none)
      else
        (build_response (str "404 Not Found") (str "application/json") notFoundBody, none)
    else
      (build_response (str "405 Method Not Allowed") (str "application/json") methodErrBody, none)

/-! ## src/servo.rs -/

/-- PWM frequency (servo.rs:12). -/
def SERVO_FREQ_HZ : Nat := 50

/-- Minimum pulse width in microseconds, 0 degrees (servo.rs:15). -/
def MIN_PULSE_US : Nat := 500

/-- Maximum pulse width in microseconds, 180 degrees (servo.rs:18). -/
def MAX_PULSE_US : Nat := 2500

/-- Period in microseconds (servo.rs:21). -/
def PERIOD_US : Nat := 1000000 / SERVO_FREQ_HZ

/-- 14-bit duty resolution (servo.rs:24). -/
def DUTY_RESOLUTION : Nat := 16384

/-- The modulus of Rust `u32` arithmetic. -/
def U32_SIZE : Nat := 2 ^ 32

/-- `ServoController::set_angle` (servo.rs:53): the raw duty value written to
the PWM channel for a `u8` angle, with each `u32` operation taken modulo
`2^32` where it could overflow. The input is first clamped by `angle.min(180)`. -/
def set_angle_duty (angle : Nat) : Nat :=
  let a := min angle 180
  let pulse_us := (MIN_PULSE_US + ((MAX_PULSE_US - MIN_PULSE_US) * a) % U32_SIZE / 180) % U32_SIZE
  (pulse_us * DUTY_RESOLUTION) % U32_SIZE / PERIOD_US

/-- The same computation in exact (unbounded) integer arithmetic; equality
with `set_angle_duty` expresses absence of `u32` overflow. -/
def set_angle_duty_exact (angle : Nat) : Nat :=
  let a := min angle 180
  (MIN_PULSE_US + (MAX_PULSE_US - MIN_PULSE_US) * a / 180) * DUTY_RESOLUTION / PERIOD_US

/-! ## src/serial_cmd.rs -/

/-- The recognized command lead-ins of `parse_servo_command` (serial_cmd.rs:24). -/
def cmdPfxs : List Str := [str "servo ", str "angle ", str "s ", str "a ", str "s", str "a"]

/-- The lead-in loop of `parse_servo_command`: strip a recognized lead-in,
parse the rest as `u8`, accept when ≤ 180, otherwise try the next one. -/
def tryCmdPfxs : List Str → Str → Option Nat
  | [], _ => none
  | p :: ps, input =>
    match stripPfx p input with
    | some rest =>
      match parseU8 (rustTrim rest) with
      | some angle => if angle ≤ 180 then some angle else tryCmdPfxs ps input
      | none => tryCmdPfxs ps input
    | none => tryCmdPfxs ps input

/-- `parse_servo_command` (serial_cmd.rs:13): trim, try a bare `u8` ≤ 180,
then the recognized lead-ins. -/
def parse_servo_command (input : Str) : Option Nat :=
  let t := rustTrim input
  match parseU8 t with
  | some angle => if angle ≤ 180 then some angle else tryCmdPfxs cmdPfxs t
  | none => tryCmdPfxs cmdPfxs t

/-- Whether a byte is a UTF-8 continuation byte (`0x80..=0xBF`). -/
def isUtf8Cont (b : Nat) : Bool := decide (0x80 ≤ b) && decide (b ≤ 0xBF)

/-- Rust `core::str::from_utf8` as a decoder to chars: `none` exactly on
invalid UTF-8 (bad lead byte, bad continuation, overlong, surrogate,
out-of-range, or truncated sequence). -/
def utf8Decode : List Nat → Option Str
  | [] => some []
  | b1 :: rest =>
    if b1 < 0x80 then
      match utf8Decode rest with
      | some cs => some (Char.ofNat b1 :: cs)
      | none => none
    else if 0xC2 ≤ b1 && b1 ≤ 0xDF then
      match rest with
      | b2 :: rest2 =>
        if isUtf8Cont b2 then
          match utf8Decode rest2 with
          | some cs => some (Char.ofNat ((b1 - 0xC0) * 0x40 + (b2 - 0x80)) :: cs)
          | none => none
        else none
      | [] => none
    else if 0xE0 ≤ b1 && b1 ≤ 0xEF then
      match rest with
      | b2 :: b3 :: rest3 =>
        if (if b1 = 0xE0 then decide (0xA0 ≤ b2) && decide (b2 ≤ 0xBF)
            else if b1 = 0xED then decide (0x80 ≤ b2) && decide (b2 ≤ 0x9F)
            else isUtf8Cont b2) && isUtf8Cont b3 then
          match utf8Decode rest3 with
          | some cs => some (Char.ofNat ((b1 - 0xE0) * 0x1000 + (b2 - 0x80) * 0x40 + (b3 - 0x80)) :: cs)
          | none => none
        else none
      | _ => none
    else if 0xF0 ≤ b1 && b1 ≤ 0xF4 then
      match rest with
      | b2 :: b3 :: b4 :: rest4 =>
        if (if b1 = 0xF0 then decide (0x90 ≤ b2) && decide (b2 ≤ 0xBF)
            else if b1 = 0xF4 then decide (0x80 ≤ b2) && decide (b2 ≤ 0x8F)
            else isUtf8Cont b2) && isUtf8Cont b3 && isUtf8Cont b4 then
          match utf8Decode rest4 with
          | some cs => some (Char.ofNat ((b1 - 0xF0) * 0x40000 + (b2 - 0x80) * 0x1000 + (b3 - 0x80) * 0x40 + (b4 - 0x80)) :: cs)
          | none => none
        else none
      | _ => none
    else none

/-- Observable actions of `serial_input_task` (serial_cmd.rs:39): the local
echo of each byte, a publish onto `SERIAL_SERVO_ANGLE`, the
"Unknown command" notice, and the blank line printed after a terminator. -/
inductive SerialEvent where
  | echo (b : Nat)
  | publish (a : Nat)
  | unknown (line : Str)
  | blankLine
deriving DecidableEq

/-- The line-buffer capacity of `serial_input_task`: bytes are stored only
while `pos < buffer.len() - 1` with `buffer: [u8; 64]` (serial_cmd.rs:73). -/
def SERIAL_BUF_CAP : Nat := 63

/-- One received byte of `serial_input_task` (serial_cmd.rs:52-76). The state
is the filled portion `buffer[..pos]`; the byte is echoed, a terminator
(`\r` or `\n`) parses and resets the buffer, any other byte is appended
only below capacity and silently dropped otherwise. -/
def serialStep (buf : List Nat) (byte : Nat) : List Nat × List SerialEvent :=
  if byte = 13 ∨ byte = 10 then
    if 0 < buf.length then
      let parseEvents :=
        match utf8Decode buf with
        | some cmd =>
          match parse_servo_command cmd with
          | some angle => [SerialEvent.publish angle]
          | none => if (rustTrim cmd).isEmpty then [] else [SerialEvent.unknown cmd]
        | none => []
      ([], SerialEvent.echo byte :: parseEvents ++ [SerialEvent.blankLine])
    else ([], [SerialEvent.echo byte, SerialEvent.blankLine])
  else
    if buf.length < SERIAL_BUF_CAP then (buf ++ [byte], [SerialEvent.echo byte])
    else (buf, [SerialEvent.echo byte])

/-- `serial_input_task` folded over a byte sequence: final buffer state and
the emitted events in order. -/
def serialRun (buf : List Nat) : List Nat → List Nat × List SerialEvent
  | [] => (buf, [])
  | b :: rest =>
    let step := serialStep buf b
    let tail := serialRun step.1 rest
    (tail.1, step.2 ++ tail.2)

/-- The angles published onto `SERIAL_SERVO_ANGLE` among a run's events. -/
def publishedAngles (events : List SerialEvent) : List Nat :=
  events.filterMap fun e =>
    match e with
    | SerialEvent.publish a => some a
    | _ => none

/-- ASCII byte sequence of a Lean string, for serial input examples. -/
def bytesOf (s : String) : List Nat := s.toList.map Char.toNat

/-! ## src/bin/main.rs — the control loop -/

/-- The two `PendingCommandSlot`s (`SERVO_ANGLE`, `SERIAL_SERVO_ANGLE`) and
the sequence of angles already written to the servo. A slot holds the
latest signalled value or `none` when drained/never signalled. -/
structure BusState where
  httpSlot : Option Nat
  serialSlot : Option Nat
  applied : List Nat
deriving DecidableEq

/-- One iteration of the control loop (main.rs:124-129): it awaits only
`SERVO_ANGLE.wait()`, so it takes the HTTP slot's value (resetting the
signal) and applies it to the servo; with no HTTP value pending the loop
stays blocked and the state is unchanged. The serial slot is never read. -/
def controlLoopStep (s : BusState) : BusState :=
  match s.httpSlot with
  | some angle => { s with httpSlot := none, applied := s.applied ++ [angle] }
  | none => s

/-- A producer signalling a `PendingCommandSlot`: overwrite-latest. -/
def signalHttp (s : BusState) (a : Nat) : BusState := { s with httpSlot := some a }

/-- The serial producer signalling its slot: overwrite-latest. -/
def signalSerial (s : BusState) (a : Nat) : BusState := { s with serialSlot := some a }

/-! ## Shared lemmas about the duty computation -/

/-- The `u32` computation of `set_angle_duty` never overflows, so it equals
the exact integer formula over the clamped angle. -/
theorem set_angle_duty_formula (a : Nat) :
    set_angle_duty a = (500 + 2000 * min a 180 / 180) * 16384 / 20000 := by
  have hm : min a 180 ≤ 180 := min_le_right a 180
  have h1 : 2000 * min a 180 < 4294967296 := by
    have : 2000 * min a 180 ≤ 2000 * 180 := Nat.mul_le_mul_left _ hm
    omega
  have h3 : (500 + 2000 * min a 180 / 180) * 16384 < 4294967296 := by
    have hd : 2000 * min a 180 / 180 ≤ 2000 := by
      have h : 2000 * min a 180 ≤ 360000 := by
        have : 2000 * min a 180 ≤ 2000 * 180 := Nat.mul_le_mul_left _ hm
        omega
      calc 2000 * min a 180 / 180 ≤ 360000 / 180 := Nat.div_le_div_right h
      _ = 2000 := by norm_num
    have : (500 + 2000 * min a 180 / 180) * 16384 ≤ 2500 * 16384 :=
      Nat.mul_le_mul_right _ (by omega)
    omega
  simp only [set_angle_duty, MIN_PULSE_US, MAX_PULSE_US, DUTY_RESOLUTION, PERIOD_US,
    SERVO_FREQ_HZ, U32_SIZE]
  norm_num
  rw [Nat.mod_eq_of_lt h1, Nat.mod_eq_of_lt h3]

/-- The exact-arithmetic variant reduced to the same closed formula. -/
theorem set_angle_duty_exact_formula (a : Nat) :
    set_angle_duty_exact a = (500 + 2000 * min a 180 / 180) * 16384 / 20000 := by
  simp only [set_angle_duty_exact, MIN_PULSE_US, MAX_PULSE_US, DUTY_RESOLUTION, PERIOD_US,
    SERVO_FREQ_HZ, U32_SIZE]

/-- Monotonicity of the closed duty formula in the (clamped) angle. -/
theorem duty_formula_mono {m n : Nat} (h : m ≤ n) :
    (500 + 2000 * m / 180) * 16384 / 20000 ≤ (500 + 2000 * n / 180) * 16384 / 20000 := by
  gcongr

/-- C2: for every angle `a` in [0,180] the duty mapper computes, in exact
integer arithmetic, `pulse_us = 500 + (2500 - 500) * a / 180` and outputs
`duty = pulse_us * 16384 / 20000` (14-bit resolution at 50 Hz). -/
theorem C2_duty_mapper_formula (a : Nat) (h : a ≤ 180) :
    set_angle_duty a = (500 + (2500 - 500) * a / 180) * 16384 / 20000 := by
  rw [set_angle_duty_formula]
  have hmin : min a 180 = a := by omega
  rw [hmin]

/-- Witness for C2 at `a = 90`. -/
theorem C2_duty_mapper_formula_witness :
    90 ≤ 180 ∧ set_angle_duty 90 = (500 + (2500 - 500) * 90 / 180) * 16384 / 20000 :=
  ⟨by decide, C2_duty_mapper_formula 90 (by decide)⟩

/-- C6: the duty mapper is monotonically non-decreasing on [0,180], with its
minimum output at angle 0 and its maximum output at angle 180. -/
theorem C6_duty_mapper_monotone :
    (∀ a b : Nat, a ≤ b → b ≤ 180 → set_angle_duty a ≤ set_angle_duty b) ∧
    (∀ a : Nat, a ≤ 180 → set_angle_duty 0 ≤ set_angle_duty a ∧
      set_angle_duty a ≤ set_angle_duty 180) := by
  have mono : ∀ a b : Nat, a ≤ b → b ≤ 180 → set_angle_duty a ≤ set_angle_duty b := by
    intro a b hab _
    rw [set_angle_duty_formula, set_angle_duty_formula]
    exact duty_formula_mono (by omega)
  exact ⟨mono, fun a ha => ⟨mono 0 a (Nat.zero_le a) ha, mono a 180 ha le_rfl⟩⟩

/-- Witness for C6 at `a = 30 ≤ b = 60`. -/
theorem C6_duty_mapper_monotone_witness :
    30 ≤ 60 ∧ 60 ≤ 180 ∧ set_angle_duty 30 ≤ set_angle_duty 60 :=
  ⟨by decide, by decide, C6_duty_mapper_monotone.1 30 60 (by decide) (by decide)⟩

/-- C10: for every 8-bit input, `set_angle` behaves as on the clamped angle
`min a 180`, the `u32` arithmetic never overflows (it agrees with exact
integer arithmetic), and the raw duty lies in [409, 2048] — strictly inside
the 14-bit full scale 16384. -/
theorem C10_set_angle_clamp_range (a : Nat) (h : a < 256) :
    set_angle_duty a = set_angle_duty (min a 180) ∧
    set_angle_duty a = set_angle_duty_exact a ∧
    409 ≤ set_angle_duty a ∧ set_angle_duty a ≤ 2048 := by
  refine ⟨?_, ?_, ?_, ?_⟩
  · rw [set_angle_duty_formula, set_angle_duty_formula]
    have : min (min a 180) 180 = min a 180 := by omega
    rw [this]
  · rw [set_angle_duty_formula, set_angle_duty_exact_formula]
  · rw [set_angle_duty_formula]
    have := duty_formula_mono (Nat.zero_le (min a 180))
    simpa using this
  · rw [set_angle_duty_formula]
    have := duty_formula_mono (min_le_right a 180)
    simpa using this

/-- Witness for C10 at the out-of-range 8-bit input `a = 200`. -/
theorem C10_set_angle_clamp_range_witness :
    200 < 256 ∧
    (set_angle_duty 200 = set_angle_duty (min 200 180) ∧
     set_angle_duty 200 = set_angle_duty_exact 200 ∧
     409 ≤ set_angle_duty 200 ∧ set_angle_duty 200 ≤ 2048) :=
  ⟨by decide, C10_set_angle_clamp_range 200 (by decide)⟩

/-! ## HTTP router claims -/

/-- Every code path of `handle_request` produces its response through
`build_response`. -/
theorem handle_request_uses_builder (r : Str) :
    ∃ st ct b, (handle_request r).1 = build_response st ct b := by
  unfold handle_request
  repeat' split
  all_goals exact ⟨_, _, _, rfl⟩

/-- C8: every response, on every code path, has the exact shape
`HTTP/1.1 <status>\r\nContent-Type: <type>\r\nContent-Length: <n>\r\n`
`Connection: close\r\n\r\n<body>` where `<n>` is the byte length of the body. -/
theorem C8_response_uniform_shape (r : Str) :
    ∃ status ctype body,
      (handle_request r).1 =
        str "HTTP/1.1 " ++ status ++ str "\r\nContent-Type: " ++ ctype
          ++ str "\r\nContent-Length: " ++ natChars (utf8Len body)
          ++ str "\r\nConnection: close\r\n\r\n" ++ body := by
  obtain ⟨st, ct, b, h⟩ := handle_request_uses_builder r
  exact ⟨st, ct, b, h⟩

/-- C7: the router answers 404 to a GET of an unrouted path (e.g.
`/nonexistent`), 405 to any non-GET method (e.g. `POST /`), and 400 to a
malformed request-line (e.g. a lone method), in which case the method and
path play no further part. -/
theorem C7_router_error_paths :
    (∀ r : Str, parse_request r = none →
      handle_request r = (build_response (str "400 Bad Request") (str "text/plain") (str "Bad Request"), none)) ∧
    (∀ r m p, parse_request r = some (m, p) → m ≠ str "GET" →
      handle_request r = (build_response (str "405 Method Not Allowed") (str "application/json") methodErrBody, none)) ∧
    (∀ r p, parse_request r = some (str "GET", p) → p ≠ str "/" → p ≠ str "/health" →
      startsWithPfx (str "/servo") p = false →
      handle_request r = (build_response (str "404 Not Found") (str "application/json") notFoundBody, none)) ∧
    handle_request (str "GET /nonexistent HTTP/1.1") =
      (build_response (str "404 Not Found") (str "application/json") notFoundBody, none) ∧
    handle_request (str "POST / HTTP/1.1") =
      (build_response (str "405 Method Not Allowed") (str "application/json") methodErrBody, none) ∧
    handle_request (str "GET") =
      (build_response (str "400 Bad Request") (str "text/plain") (str "Bad Request"), none) := by
  refine ⟨?_, ?_, ?_, by decide, by decide, by decide⟩
  · intro r h
    unfold handle_request
    rw [h]
  · intro r m p h hm
    unfold handle_request
    rw [h]
    simp only [if_neg hm]
  · intro r p h hp hph hsp
    unfold handle_request
    rw [h]
    simp only [if_pos rfl, if_neg hp, if_neg hph, hsp, Bool.false_eq_true, if_false]
    simp

/-- Witness for C7: the lone-method request line discharges part one. -/
theorem C7_router_error_paths_witness :
    parse_request (str "GET") = none ∧
    handle_request (str "GET") =
      (build_response (str "400 Bad Request") (str "text/plain") (str "Bad Request"), none) :=
  ⟨by decide, C7_router_error_paths.1 (str "GET") (by decide)⟩

set_option maxHeartbeats 3200000 in
/-- C1: for `a` in [0,180], `GET /servo/<a>` and `GET /servo?angle=<a>`
(also among other `&`-joined pairs) answer 200 with body
`{"angle": <a>}` and publish exactly `a`; for `a = 200` both syntaxes
answer 400 and publish nothing. -/
theorem C1_servo_angle_routes :
    (∀ a : Nat, a ≤ 180 →
      handle_request (str "GET /servo/" ++ natChars a ++ str " HTTP/1.1") =
        (build_response (str "200 OK") (str "application/json")
          (str "\x7b\"angle\": " ++ natChars a ++ str "\x7d"), some a)) ∧
    (∀ a : Nat, a ≤ 180 →
      handle_request (str "GET /servo?angle=" ++ natChars a ++ str " HTTP/1.1") =
        (build_response (str "200 OK") (str "application/json")
          (str "\x7b\"angle\": " ++ natChars a ++ str "\x7d"), some a)) ∧
    (∀ a : Nat, a ≤ 180 →
      handle_request (str "GET /servo?b=2&angle=" ++ natChars a ++ str "&x=1 HTTP/1.1") =
        (build_response (str "200 OK") (str "application/json")
          (str "\x7b\"angle\": " ++ natChars a ++ str "\x7d"), some a)) ∧
    handle_request (str "GET /servo/200 HTTP/1.1") =
      (build_response (str "400 Bad Request") (str "application/json") angleRangeErrBody, none) ∧
    handle_request (str "GET /servo?angle=200 HTTP/1.1") =
      (build_response (str "400 Bad Request") (str "application/json") angleRangeErrBody, none) := by
  refine ⟨by decide, by decide, by decide, by decide, by decide⟩

/-- Witness for C1 at `a = 45` on the path syntax. -/
theorem C1_servo_angle_routes_witness :
    45 ≤ 180 ∧
    handle_request (str "GET /servo/45 HTTP/1.1") =
      (build_response (str "200 OK") (str "application/json")
        (str "\x7b\"angle\": " ++ natChars 45 ++ str "\x7d"), some 45) :=
  ⟨by decide, C1_servo_angle_routes.1 45 (by decide)⟩

/-! ## Command-bus claims -/

/-- C3 counterexample: with the HTTP slot holding 10 and the serial slot
holding 20 (both signalled before the loop drains either), one loop
iteration applies only 10, and the resulting state is a fixed point of the
loop — the serial command 20 is never applied. -/
theorem C3_arbitration_counterexample :
    (controlLoopStep ⟨some 10, some 20, []⟩).applied = [10] ∧
    controlLoopStep (controlLoopStep ⟨some 10, some 20, []⟩) = controlLoopStep ⟨some 10, some 20, []⟩ ∧
    ¬ 20 ∈ (controlLoopStep ⟨some 10, some 20, []⟩).applied := by decide

/-- C3 (amended): when both slots are signalled, the control loop services
only the HTTP slot — the HTTP command is applied and the serial slot stays
pending, unread, through every further iteration. -/
theorem C3_arbitration_amended (a b : Nat) (l : List Nat) :
    controlLoopStep ⟨some a, some b, l⟩ = ⟨none, some b, l ++ [a]⟩ ∧
    controlLoopStep ⟨none, some b, l ++ [a]⟩ = ⟨none, some b, l ++ [a]⟩ := ⟨rfl, rfl⟩

/-! ## Serial channel claims -/

/-- The lead-in loop of `parse_servo_command` only accepts angles ≤ 180. -/
theorem tryCmdPfxs_le_180 : ∀ (ps : List Str) (input : Str) (a : Nat),
    tryCmdPfxs ps input = some a → a ≤ 180 := by
  intro ps
  induction ps with
  | nil => intro input a h; simp [tryCmdPfxs] at h
  | cons p ps ih =>
    intro input a h
    unfold tryCmdPfxs at h
    split at h
    · split at h
      · split at h
        · simp only [Option.some.injEq] at h; omega
        · exact ih _ _ h
      · exact ih _ _ h
    · exact ih _ _ h

/-- `parse_servo_command` only accepts angles ≤ 180. -/
theorem parse_servo_command_le_180 (s : Str) (a : Nat)
    (h : parse_servo_command s = some a) : a ≤ 180 := by
  simp only [parse_servo_command] at h
  split at h
  · split at h
    · simp only [Option.some.injEq] at h; omega
    · exact tryCmdPfxs_le_180 _ _ _ h
  · exact tryCmdPfxs_le_180 _ _ _ h

/-- A publish emitted by one serial step carries an angle ≤ 180. -/
theorem serialStep_publish_le {buf : List Nat} {b a : Nat}
    (h : SerialEvent.publish a ∈ (serialStep buf b).2) : a ≤ 180 := by
  simp only [serialStep] at h
  by_cases hterm : b = 13 ∨ b = 10
  · rw [if_pos hterm] at h
    by_cases hlen : 0 < buf.length
    · rw [if_pos hlen] at h
      cases hdec : utf8Decode buf with
      | none => simp [hdec] at h
      | some cmd =>
        simp only [hdec] at h
        cases hp : parse_servo_command cmd with
        | none =>
          simp only [hp] at h
          split at h <;> simp at h
        | some angle =>
          simp only [hp] at h
          simp at h
          subst h
          exact parse_servo_command_le_180 _ _ hp
    · rw [if_neg hlen] at h; simp at h
  · rw [if_neg hterm] at h
    split at h <;> simp at h

/-- Every publish of a serial run carries an angle ≤ 180. -/
theorem serialRun_publish_le : ∀ (bytes : List Nat) (buf : List Nat) (a : Nat),
    SerialEvent.publish a ∈ (serialRun buf bytes).2 → a ≤ 180 := by
  intro bytes
  induction bytes with
  | nil => intro buf a h; simp [serialRun] at h
  | cons b rest ih =>
    intro buf a h
    unfold serialRun at h
    simp only [List.mem_append] at h
    rcases h with h | h
    · exact serialStep_publish_le h
    · exact ih _ _ h

/-- One serial step keeps the line buffer within capacity. -/
theorem serialStep_len {buf : List Nat} {b : Nat} (h : buf.length ≤ SERIAL_BUF_CAP) :
    ((serialStep buf b).1).length ≤ SERIAL_BUF_CAP := by
  unfold serialStep
  split
  · split <;> simp
  · split
    · simp only [List.length_append, List.length_singleton]
      omega
    · exact h

/-- A terminator byte empties the line buffer. -/
theorem serialStep_reset {buf : List Nat} {b : Nat} (h : b = 13 ∨ b = 10) :
    (serialStep buf b).1 = [] := by
  unfold serialStep
  rw [if_pos h]
  split <;> rfl

/-- A serial run keeps the line buffer within capacity. -/
theorem serialRun_len : ∀ (bytes : List Nat) (buf : List Nat),
    buf.length ≤ SERIAL_BUF_CAP → ((serialRun buf bytes).1).length ≤ SERIAL_BUF_CAP := by
  intro bytes
  induction bytes with
  | nil => intro buf h; simpa [serialRun] using h
  | cons b rest ih =>
    intro buf h
    unfold serialRun
    exact ih _ (serialStep_len h)

/-- After a line feed, the run continues exactly as a fresh run would. -/
theorem serialRun_after_term (buf : List Nat) (bytes : List Nat) :
    serialRun buf (10 :: bytes) =
      ((serialRun [] bytes).1, (serialStep buf 10).2 ++ (serialRun [] bytes).2) := by
  have h1 : (serialStep buf 10).1 = [] := serialStep_reset (Or.inr rfl)
  conv_lhs => rw [serialRun]
  rw [h1]

/-- The HTTP router publishes only angles ≤ 180. -/
theorem handle_request_publish_le (r : Str) (a : Nat)
    (h : (handle_request r).2 = some a) : a ≤ 180 := by
  unfold handle_request at h
  repeat' split at h
  all_goals simp_all

/-- C5: every AngleCommand published onto either channel (by the HTTP router
or by the serial parser/task) is in [0,180]; out-of-range inputs are
rejected at the channel boundary. -/
theorem C5_channel_range_invariant :
    (∀ (r : Str) (a : Nat), (handle_request r).2 = some a → a ≤ 180) ∧
    (∀ (s : Str) (a : Nat), parse_servo_command s = some a → a ≤ 180) ∧
    (∀ (buf bytes : List Nat) (a : Nat),
      SerialEvent.publish a ∈ (serialRun buf bytes).2 → a ≤ 180) :=
  ⟨handle_request_publish_le, parse_servo_command_le_180,
    fun buf bytes a h => serialRun_publish_le bytes buf a h⟩

/-- Witness for C5 at the request `GET /servo/90`. -/
theorem C5_channel_range_invariant_witness :
    (handle_request (str "GET /servo/90 HTTP/1.1")).2 = some 90 ∧ 90 ≤ 180 :=
  ⟨by decide, C5_channel_range_invariant.1 (str "GET /servo/90 HTTP/1.1") 90 (by decide)⟩

set_option maxHeartbeats 3200000 in
/-- C4: the serial parser trims whitespace and accepts a bare integer or one
preceded by `servo `, `angle `, `s `, `a `, `s`, `a`, only for values ≤ 180;
the line `servo 45` publishes 45, the line `200` publishes nothing and
draws the unknown-command notice. -/
theorem C4_serial_command_formats :
    parse_servo_command (str "servo 45") = some 45 ∧
    publishedAngles (serialRun [] (bytesOf "servo 45\n")).2 = [45] ∧
    parse_servo_command (str "200") = none ∧
    publishedAngles (serialRun [] (bytesOf "200\n")).2 = [] ∧
    SerialEvent.unknown (str "200") ∈ (serialRun [] (bytesOf "200\n")).2 ∧
    (∀ a : Nat, a ≤ 180 →
      parse_servo_command (natChars a) = some a ∧
      parse_servo_command (str "servo " ++ natChars a) = some a ∧
      parse_servo_command (str "angle " ++ natChars a) = some a ∧
      parse_servo_command (str "s " ++ natChars a) = some a ∧
      parse_servo_command (str "a " ++ natChars a) = some a ∧
      parse_servo_command (str "s" ++ natChars a) = some a ∧
      parse_servo_command (str "a" ++ natChars a) = some a) ∧
    (∀ (s : Str) (a : Nat), parse_servo_command s = some a → a ≤ 180) := by
  refine ⟨by decide, by decide, by decide, by decide, by decide, by decide,
    parse_servo_command_le_180⟩

/-- Witness for C4 at the bare-integer line `90`. -/
theorem C4_serial_command_formats_witness :
    90 ≤ 180 ∧ parse_servo_command (natChars 90) = some 90 :=
  ⟨by decide, (C4_serial_command_formats.2.2.2.2.2.1 90 (by decide)).1⟩

/-- C9: the line buffer has fixed capacity — bytes past capacity before a
terminator are dropped with no growth, a terminator resets the buffer, and
after a terminator the run continues exactly as a fresh run, so an
overlong line cannot corrupt later lines. -/
theorem C9_line_buffer_bounded :
    (∀ (buf bytes : List Nat), buf.length ≤ SERIAL_BUF_CAP →
      ((serialRun buf bytes).1).length ≤ SERIAL_BUF_CAP) ∧
    (∀ (buf : List Nat) (b : Nat), buf.length = SERIAL_BUF_CAP → ¬(b = 13 ∨ b = 10) →
      serialStep buf b = (buf, [SerialEvent.echo b])) ∧
    (∀ (buf : List Nat) (b : Nat), b = 13 ∨ b = 10 → (serialStep buf b).1 = []) ∧
    (∀ (buf bytes : List Nat),
      serialRun buf (10 :: bytes) =
        ((serialRun [] bytes).1, (serialStep buf 10).2 ++ (serialRun [] bytes).2)) := by
  refine ⟨fun buf bytes h => serialRun_len bytes buf h, ?_, fun buf b h => serialStep_reset h,
    serialRun_after_term⟩
  intro buf b hfull hnterm
  unfold serialStep
  rw [if_neg hnterm, if_neg (by omega)]

/-- Witness for C9 on a short concrete run. -/
theorem C9_line_buffer_bounded_witness :
    ([] : List Nat).length ≤ SERIAL_BUF_CAP ∧
    ((serialRun [] (bytesOf "servo 45\n")).1).length ≤ SERIAL_BUF_CAP :=
  ⟨by decide, C9_line_buffer_bounded.1 [] (bytesOf "servo 45\n") (by decide)⟩
